import Mathlib

/-!
Verification development for the tehnosocium content pipeline.

The Lean definitions below are a shallow embedding of the pipeline code:
the Work Store helpers in utils/db_utils.py, the document helpers in
utils/md_utils.py and utils/file_utils.py, and the per-stage processors in
agents/cleaner_agent.py, agents/summarizer_agent.py, agents/selector_agent.py,
agents/generator_agent.py, agents/publisher_agent.py and agents/fetcher_agent.py.

Modelling conventions:
- SQLite rows become the `Row` structure; the articles table becomes a list of
  rows.  A failed database connection makes every db_utils helper a no-op on the
  store (each helper opens its own connection); the helpers that matter to a
  claim carry explicit Bool parameters for that.
- Side-car markdown files become a `Doc` (parsed view: front-matter key/value
  list plus body) stored in an association list keyed by path.
- External collaborators (the generative model, Telegram, the filesystem) are
  oracles: each per-item processor takes the collaborator outcome as an
  explicit argument and is otherwise a pure function of the two stores.
- Python strings are modelled as `List Char` where character-level behaviour
  matters (truncation, strip, the URL regular expressions) and as `String`
  for keys and statuses.
- Logging and sleeping are dropped; asyncio.gather batches are sequentialised
  (batch boundaries only affect timing, not the stores).
-/

namespace Tehnosocium

/-- Python whitespace for str.strip and the regex classes: space, tab,
newline, carriage return, vertical tab, form feed (ASCII fragment). -/
def isPySpace (c : Char) : Bool :=
  c = ' ' || c = '\t' || c = '\n' || c = '\r' || c = '\x0b' || c = '\x0c'

/-- Python str.strip on a character list. -/
def pyStrip (l : List Char) : List Char :=
  ((l.dropWhile isPySpace).reverse.dropWhile isPySpace).reverse

/-- Python truthiness of an optional string (None and the empty string are
falsy). -/
def strTruthy : Option String → Bool
  | none => false
  | some s => s != ""

/-- Python str.endswith "_failed", as used by update_article_status. -/
def endsWithFailed (s : String) : Bool :=
  "_failed".data.isSuffixOf s.data

/-- One row of the articles table (db_utils.init_db schema). -/
structure Row where
  id : Nat
  sourceName : String
  title : String
  url : String
  publicationDate : String
  fetchedAt : Nat
  status : String
  rawJsonPath : Option String
  cleanedMdPath : Option String
  postMdPath : Option String
  errorMessage : Option String
deriving Repr, DecidableEq

/-- The articles table. -/
abbrev Store := List Row

/-- The row-level effect of db_utils.update_article_status: which UPDATE
statement runs is decided by the new status, the presence of a file path and
the presence of a non-empty error message, exactly as in the Python branches. -/
def applyUpdate (r : Row) (status : String) (filePath errorMsg : Option String) : Row :=
  if status = "cleaned" && strTruthy filePath then
    { r with status := status, cleanedMdPath := filePath, errorMessage := none }
  else if status = "post_generated" && strTruthy filePath then
    { r with status := status, postMdPath := filePath, errorMessage := none }
  else if endsWithFailed status && strTruthy errorMsg then
    { r with status := status, errorMessage := errorMsg }
  else
    { r with status := status, errorMessage := none }

/-- db_utils.update_article_status over the store: the UPDATE hits every row
whose id matches (ids are unique in a real table via the PRIMARY KEY). -/
def updateArticleStatus (store : Store) (id : Nat) (status : String)
    (filePath errorMsg : Option String) : Store :=
  store.map (fun r => if r.id = id then applyUpdate r status filePath errorMsg else r)

/-- db_utils.check_article_exists: returns True when the connection cannot be
opened, returns True when the SELECT raises, otherwise reports whether a row
with this url exists. -/
def checkArticleExists (connOk queryOk : Bool) (store : Store) (url : String) : Bool :=
  if !connOk then true
  else if !queryOk then true
  else store.any (fun r => r.url == url)

/-- Largest id in use (AUTOINCREMENT high-water mark; rows are never deleted). -/
def maxId (store : Store) : Nat :=
  (store.map Row.id).foldr Nat.max 0

/-- The row INSERT INTO articles builds: status raw_fetched, no stage outputs,
no error. -/
def newArticleRow (sourceName title url pubDate : String) (fetchedAt : Nat)
    (rawJsonPath : Option String) (newId : Nat) : Row :=
  { id := newId, sourceName := sourceName, title := title, url := url,
    publicationDate := pubDate, fetchedAt := fetchedAt,
    status := "raw_fetched", rawJsonPath := rawJsonPath,
    cleanedMdPath := none, postMdPath := none, errorMessage := none }

/-- db_utils.add_article: INSERT with status raw_fetched; a UNIQUE violation on
url is caught (IntegrityError) and reported as None with the table unchanged;
a failed connection also returns None. -/
def addArticle (connOk : Bool) (store : Store) (sourceName title url pubDate : String)
    (fetchedAt : Nat) (rawJsonPath : Option String) : Store × Option Nat :=
  if !connOk then (store, none)
  else if store.any (fun r => r.url == url) then (store, none)
  else
    let newId := maxId store + 1
    (store ++ [newArticleRow sourceName title url pubDate fetchedAt rawJsonPath newId],
     some newId)

/-- db_utils.get_article_id_by_url. -/
def getArticleIdByUrl (store : Store) (url : String) : Option Nat :=
  (store.find? (fun r => r.url == url)).map Row.id

/-- db_utils.get_article_for_cleaning: the row, only when its status is still
raw_fetched. -/
def getArticleForCleaning (store : Store) (id : Nat) : Option Row :=
  store.find? (fun r => r.id = id && r.status == "raw_fetched")

/-- db_utils.get_articles_for_summarizing: rows with status cleaned, with an
optional LIMIT (Python's `if limit:` treats a limit of 0 like None — no LIMIT
clause is added). -/
def getArticlesForSummarizing (store : Store) (limit : Option Nat) : List Row :=
  let rows := store.filter (fun r => r.status == "cleaned")
  match limit with
  | none => rows
  | some n => if n = 0 then rows else rows.take n

/-- db_utils.get_recent_summarized_articles: rows with status summarized whose
fetched_at is at or after the recency threshold, newest first (ORDER BY
fetched_at DESC). -/
def getRecentSummarizedArticles (store : Store) (threshold : Nat) : List Row :=
  (store.filter (fun r => r.status == "summarized" && threshold ≤ r.fetchedAt)).insertionSort
    (fun a b => b.fetchedAt ≤ a.fetchedAt)

/-- Modelled from the spec: db_utils.get_selected_article is called by
generator_agent.run_generation_cycle but is missing from utils/db_utils.py.
Spec section 6 gives the Work Store contract select-by-status(status, optional
filters) -> ordered set of items, and the Generate stage consumes input status
selected, one item per cycle; so the model returns the first row whose status
is selected, or nothing. -/
def getSelectedArticle (store : Store) : Option Row :=
  store.find? (fun r => r.status == "selected")

/-- Modelled from the spec: db_utils.get_post_to_publish is called by
publisher_agent.run_publishing_cycle but is missing from utils/db_utils.py.
Spec section 6 gives select-by-status, and the Publish stage consumes input
status post_generated, one item per cycle; so the model returns the first row
whose status is post_generated, or nothing. -/
def getPostToPublish (store : Store) : Option Row :=
  store.find? (fun r => r.status == "post_generated")

/-! ## Document Store (md_utils / file_utils)

A side-car markdown file is modelled in parsed view: `meta` is the parsed YAML
front matter (none when the file has front matter that does not parse to a
dictionary) and `body` is the text after the front matter, as returned by
md_utils.read_md_file (which strips surrounding whitespace from the body). -/

/-- Parsed view of one markdown file. -/
structure Doc where
  meta : Option (List (String × String))
  body : List Char
deriving Repr, DecidableEq

/-- The filesystem of markdown files: path to parsed document. -/
abbrev DocStore := List (String × Doc)

/-- md_utils.read_md_file: not-found or an IO error yields nothing. -/
def docRead (ds : DocStore) (path : String) : Option Doc :=
  (ds.find? (fun p => p.1 == path)).map Prod.snd

/-- Create-or-overwrite write of a parsed document at a path. -/
def docWrite : DocStore → String → Doc → DocStore
  | [], path, d => [(path, d)]
  | q :: rest, path, d =>
    if q.1 == path then (path, d) :: rest else q :: docWrite rest path d

/-- Value lookup in a front-matter key/value list. -/
def lookupKey (l : List (String × String)) (k : String) : Option String :=
  (l.find? (fun p => p.1 == k)).map Prod.snd

/-- How one existing entry fares under Python dict.update: an updated key
keeps its position and takes the new value. -/
def metaUpdateEntry (upd : List (String × String)) (p : String × String) :
    String × String :=
  match upd.find? (fun q => q.1 == p.1) with
  | some q => (p.1, q.2)
  | none => p

/-- Python dict.update on an association list with unique keys: existing keys
keep their position and take the new value, new keys are appended in order. -/
def metaUpdate (m upd : List (String × String)) : List (String × String) :=
  m.map (metaUpdateEntry upd) ++
  upd.filter (fun q => !(m.any (fun p => p.1 == q.1)))

/-- md_utils.update_md_yaml: read the file (failure returns False with nothing
written), merge the update into the front matter treating unparseable front
matter as an empty dictionary, and rewrite the same file with the body
unchanged.  Every exception inside the helper is caught and reported as False,
so `writeOk` is the outcome of the rewrite. -/
def updateMdYaml (writeOk : Bool) (ds : DocStore) (path : String)
    (upd : List (String × String)) : DocStore × Bool :=
  match docRead ds path with
  | none => (ds, false)
  | some d =>
    if writeOk then
      (docWrite ds path { meta := some (metaUpdate (d.meta.getD []) upd), body := d.body }, true)
    else
      (ds, false)

/-- md_utils.create_post_md_file: write a brand-new file whose parsed view is
the given front matter and body; every exception is caught and reported as
False with nothing written. -/
def createPostMdFile (createOk : Bool) (ds : DocStore) (path : String)
    (meta : List (String × String)) (body : List Char) : DocStore × Bool :=
  if createOk then (docWrite ds path { meta := some meta, body := pyStrip body }, true)
  else (ds, false)

/-- Outcome of file_utils.save_md: the write succeeds, fails with an IO error
(which save_md catches, logs and swallows, returning normally with nothing
written), or fails with a non-IO exception that propagates to the caller. -/
inductive SaveOutcome where
  | ok
  | ioError
  | exn
deriving Repr, DecidableEq

/-! ## URL extraction (selector_agent lines 172-190)

The selector looks for URLs in the collaborator response with two regular
expressions over Python strings:
- re.findall of https?://\S+ : every maximal non-space token starting at a
  position where the scheme matches, scanned left to right without overlap;
- re.search of (?:^|\s)(https?://\S+)(?:\s|$) : the first scheme position that
  sits at the start of the string or right after a whitespace character. -/

/-- Match https?://\S+ at the head of the list: the scheme (with the optional
s resolved by backtracking exactly as the regex does), then at least one
non-space character taken greedily.  Returns the matched token and the rest of
the input after it. -/
def matchUrlAt (l : List Char) : Option (List Char × List Char) :=
  match l with
  | 'h' :: 't' :: 't' :: 'p' :: rest =>
    match rest with
    | 's' :: ':' :: '/' :: '/' :: r =>
      let tok := r.takeWhile (fun c => !isPySpace c)
      if tok.isEmpty then none
      else some ('h' :: 't' :: 't' :: 'p' :: 's' :: ':' :: '/' :: '/' :: tok,
                 r.dropWhile (fun c => !isPySpace c))
    | ':' :: '/' :: '/' :: r =>
      let tok := r.takeWhile (fun c => !isPySpace c)
      if tok.isEmpty then none
      else some ('h' :: 't' :: 't' :: 'p' :: ':' :: '/' :: '/' :: tok,
                 r.dropWhile (fun c => !isPySpace c))
    | _ => none
  | _ => none

/-- Fuelled scan implementing re.findall of https?://\S+ (each match consumes
at least one character, so fuel equal to the input length is enough). -/
def findUrlsFuel : Nat → List Char → List (List Char)
  | 0, _ => []
  | _ + 1, [] => []
  | fuel + 1, c :: cs =>
    match matchUrlAt (c :: cs) with
    | some (url, rest) => url :: findUrlsFuel fuel rest
    | none => findUrlsFuel fuel cs

/-- re.findall of https?://\S+ over the whole response. -/
def findUrls (l : List Char) : List (List Char) :=
  findUrlsFuel l.length l

/-- re.search of (?:^|\s)(https?://\S+)(?:\s|$): group 1 of the first match.
`prevSpace` records whether the current position is at the start of the string
or preceded by whitespace. -/
def anchoredUrl (prevSpace : Bool) : List Char → Option (List Char)
  | [] => none
  | c :: cs =>
    if prevSpace then
      match matchUrlAt (c :: cs) with
      | some (url, _) => some url
      | none => anchoredUrl (isPySpace c) cs
    else
      anchoredUrl (isPySpace c) cs

/-- Lines 179-190 of selector_agent: the selection is the single findall URL
when it also equals group 1 of the anchored search; when findall produced one
URL but the anchored search found none, url_match.group(1) raises
AttributeError, which the surrounding except swallows leaving no selection. -/
def extractSelectedUrl (resp : List Char) : Option (List Char) :=
  match findUrls resp, anchoredUrl true resp with
  | [u], some v => if u = v then some u else none
  | _, _ => none

/-! ## Stage processors

Each per-item processor is a pure function of the two stores and the
collaborator outcomes, and additionally returns the ordered list of external
writes it performed, so that the write-then-update ordering is observable. -/

/-- An observable external write: a document write attempt (with its success
flag) or a Work Store status update. -/
inductive Event where
  | docWriteAttempt (path : String) (ok : Bool)
  | dbUpdate (id : Nat) (status : String)
deriving Repr, DecidableEq

/-- Result of one per-item processor invocation. -/
structure StepOut where
  store : Store
  docs : DocStore
  events : List Event
deriving Repr, DecidableEq

/-- Outcome of one generative-model call (generate_content_async together with
the response checks shared by the agents): a rate-limit failure, any other
exception, a response without content parts, or the response text. -/
inductive LlmOutcome where
  | rateLimited (details : String)
  | apiError (details : String)
  | noParts
  | text (s : List Char)
deriving Repr, DecidableEq

/-- The input-size cap of the Clean stage (cleaner_agent line 175). -/
def maxHtmlLength : Nat := 500000

/-- cleaner_agent lines 175-178: inputs longer than the cap keep only their
first maxHtmlLength characters. -/
def truncateRawHtml (h : List Char) : List Char :=
  if maxHtmlLength < h.length then h.take maxHtmlLength else h

/-- cleaner_agent line 185: the prompt sent to the collaborator is the
configured template with the (possibly truncated) raw HTML substituted for its
raw_html placeholder; pre and post are the template text around the
placeholder. -/
def cleaningPrompt (pre post h : List Char) : List Char :=
  pre ++ truncateRawHtml h ++ post

/-- The parsed view of the markdown file the cleaner writes (lines 235-244):
front matter mirroring the row metadata with status cleaned, body the cleaned
text, with the dead-code placeholder for blank text kept from line 233. -/
def cleanerDoc (a : Row) (cleaned : List Char) : Doc :=
  { meta := some [("title", a.title), ("source", a.sourceName), ("url", a.url),
                  ("publication_date", a.publicationDate), ("status", "cleaned")],
    body := if cleaned.isEmpty || cleaned.all isPySpace
            then "[Контент не извлечен]".data else cleaned }

/-- cleaner_agent lines 218-253, the dual-store transition of the Clean stage:
save the markdown file, then update the Work Store.  save_md swallows IO
errors (file_utils lines 57-59), so on an IO failure the cleaner proceeds and
still records status cleaned with the path of the never-written file; only a
non-IO exception reaches the except branch that records cleaning_failed. -/
def cleanerCommit (a : Row) (cleaned : List Char) (mdPath : String)
    (save : SaveOutcome) (store : Store) (ds : DocStore) : StepOut :=
  match save with
  | .ok =>
    { store := updateArticleStatus store a.id "cleaned" (some mdPath) none,
      docs := docWrite ds mdPath (cleanerDoc a cleaned),
      events := [.docWriteAttempt mdPath true, .dbUpdate a.id "cleaned"] }
  | .ioError =>
    { store := updateArticleStatus store a.id "cleaned" (some mdPath) none,
      docs := ds,
      events := [.docWriteAttempt mdPath false, .dbUpdate a.id "cleaned"] }
  | .exn =>
    { store := updateArticleStatus store a.id "cleaning_failed" none
                 (some "Failed to save MD file"),
      docs := ds,
      events := [.docWriteAttempt mdPath false, .dbUpdate a.id "cleaning_failed"] }

/-- Collaborator outcomes for one Clean invocation: the loaded raw HTML (none
when the JSON cannot be loaded or has no raw_html key), the model outcome, the
generated target filename, and the file-save outcome. -/
structure CleanOracle where
  loadedHtml : Option (List Char)
  llm : LlmOutcome
  mdFilePath : String
  saveOutcome : SaveOutcome

/-- cleaner_agent.process_article.  modelOk mirrors the self.model check (the
caller handle_cleaning_request already returns when the model is missing). -/
def processArticle (modelOk : Bool) (o : CleanOracle) (store : Store) (ds : DocStore)
    (articleId : Nat) : StepOut :=
  if !modelOk then
    { store := updateArticleStatus store articleId "cleaning_failed" none
                 (some "Cleaner agent model not initialized"),
      docs := ds, events := [.dbUpdate articleId "cleaning_failed"] }
  else
    match getArticleForCleaning store articleId with
    | none => { store := store, docs := ds, events := [] }
    | some a =>
      if !strTruthy a.rawJsonPath then
        { store := updateArticleStatus store articleId "cleaning_failed" none
                     (some "Missing raw_json_path for article"),
          docs := ds, events := [.dbUpdate articleId "cleaning_failed"] }
      else
        match o.loadedHtml with
        | none =>
          { store := updateArticleStatus store articleId "cleaning_failed" none
                       (some "Failed to load/parse raw HTML JSON"),
            docs := ds, events := [.dbUpdate articleId "cleaning_failed"] }
        | some rawHtml =>
          let rawHtml := truncateRawHtml rawHtml
          if (pyStrip rawHtml).isEmpty then
            { store := updateArticleStatus store articleId "cleaning_failed" none
                         (some "Raw HTML content is empty"),
              docs := ds, events := [.dbUpdate articleId "cleaning_failed"] }
          else
            match o.llm with
            | .rateLimited details =>
              { store := updateArticleStatus store articleId "cleaning_failed" none
                           (some ("Rate limit exceeded: " ++ details)),
                docs := ds, events := [.dbUpdate articleId "cleaning_failed"] }
            | .apiError details =>
              { store := updateArticleStatus store articleId "cleaning_failed" none
                           (some ("Gemini API error: " ++ details)),
                docs := ds, events := [.dbUpdate articleId "cleaning_failed"] }
            | .noParts =>
              { store := updateArticleStatus store articleId "cleaning_failed" none
                           (some "Model returned no content parts"),
                docs := ds, events := [.dbUpdate articleId "cleaning_failed"] }
            | .text s =>
              let cleaned := pyStrip s
              if cleaned.isEmpty then
                { store := updateArticleStatus store articleId "cleaning_failed" none
                             (some "Model returned empty text"),
                  docs := ds, events := [.dbUpdate articleId "cleaning_failed"] }
              else
                cleanerCommit a cleaned o.mdFilePath o.saveOutcome store ds

/-- summarizer_agent lines 237-262, the dual-store transition of the Summarize
stage: merge the summary and the summarized status into the existing file via
update_md_yaml; only when that reports success is the Work Store updated, and
a reported failure leaves the Work Store untouched (update_md_yaml catches all
its own exceptions, so the except branch recording summarize_failed is dead). -/
def summarizerCommit (id : Nat) (mdPath : String) (summary : List Char)
    (writeOk : Bool) (store : Store) (ds : DocStore) : StepOut :=
  let res := updateMdYaml writeOk ds mdPath
    [("summary", String.mk summary), ("status", "summarized")]
  if res.2 then
    { store := updateArticleStatus store id "summarized" none none,
      docs := res.1,
      events := [.docWriteAttempt mdPath true, .dbUpdate id "summarized"] }
  else
    { store := store, docs := res.1, events := [.docWriteAttempt mdPath false] }

/-- Collaborator outcomes for one Summarize invocation. -/
structure SummOracle where
  llm : LlmOutcome
  writeOk : Bool

/-- summarizer_agent.process_article_summary on one article row (the article
info carries the row id and the cleaned_md_path column). -/
def processArticleSummary (o : SummOracle) (store : Store) (ds : DocStore)
    (articleId : Nat) (mdPath : Option String) : StepOut :=
  if articleId = 0 || !strTruthy mdPath then
    { store := store, docs := ds, events := [] }
  else
    let path := mdPath.getD ""
    match docRead ds path with
    | none =>
      { store := updateArticleStatus store articleId "summarize_failed" none
                   (some "Не удалось прочитать текст статьи из MD файла."),
        docs := ds, events := [.dbUpdate articleId "summarize_failed"] }
    | some d =>
      if (pyStrip d.body).isEmpty then
        { store := updateArticleStatus store articleId "summarize_failed" none
                     (some "Текст статьи в MD файле пустой."),
          docs := ds, events := [.dbUpdate articleId "summarize_failed"] }
      else
        match o.llm with
        | .rateLimited details =>
          { store := updateArticleStatus store articleId "summarize_failed" none
                       (some ("Превышен лимит API: " ++ details)),
            docs := ds, events := [.dbUpdate articleId "summarize_failed"] }
        | .apiError details =>
          { store := updateArticleStatus store articleId "summarize_failed" none
                       (some ("Ошибка API Gemini: " ++ details)),
            docs := ds, events := [.dbUpdate articleId "summarize_failed"] }
        | .noParts =>
          { store := updateArticleStatus store articleId "summarize_failed" none
                       (some "Модель ИИ вернула некорректный ответ (нет content/parts)."),
            docs := ds, events := [.dbUpdate articleId "summarize_failed"] }
        | .text s =>
          let summary := pyStrip s
          if summary.isEmpty then
            { store := updateArticleStatus store articleId "summarize_failed" none
                         (some "Модель ИИ вернула пустое резюме."),
              docs := ds, events := [.dbUpdate articleId "summarize_failed"] }
          else
            summarizerCommit articleId path summary o.writeOk store ds

/-- selector_agent lines 104-130: a stored row becomes a selection candidate
only when it carries a markdown path, the file is readable, its front matter
parses to a dictionary holding a summary key, and that summary is a non-blank
string; otherwise the row is skipped. -/
def selectorCandidate (ds : DocStore) (r : Row) : Option Row :=
  if !strTruthy r.cleanedMdPath then none
  else
    match docRead ds (r.cleanedMdPath.getD "") with
    | none => none
    | some d =>
      match d.meta with
      | none => none
      | some m =>
        match m.find? (fun p => p.1 == "summary") with
        | none => none
        | some p => if p.2 ≠ "" && !(pyStrip p.2.data).isEmpty then some r else none

/-- selector_agent lines 218-237, the dual-store transition of the Select
stage: write status selected into the file front matter first; only when that
write reports success is the Work Store updated, and a reported failure (or an
exception) leaves the Work Store untouched. -/
def selectorCommit (id : Nat) (mdPath : String) (writeOk : Bool)
    (store : Store) (ds : DocStore) : StepOut :=
  let res := updateMdYaml writeOk ds mdPath [("status", "selected")]
  if res.2 then
    { store := updateArticleStatus store id "selected" none none,
      docs := res.1,
      events := [.docWriteAttempt mdPath true, .dbUpdate id "selected"] }
  else
    { store := store, docs := res.1, events := [.docWriteAttempt mdPath false] }

/-- Collaborator outcomes for one Select cycle: the model response text (none
when the call raises, including a rate limit) and the front-matter write
outcome. -/
structure SelOracle where
  llm : Option (List Char)
  writeOk : Bool

/-- The candidate set the Select cycle offers to the collaborator
(selector_agent lines 104-148): the recent summarized rows that carry a valid
non-blank summary document, capped at the first maxSummaries
(candidates_to_send in the source). -/
def offeredCandidates (store : Store) (ds : DocStore)
    (threshold maxSummaries : Nat) : List Row :=
  ((getRecentSummarizedArticles store threshold).filterMap
    (selectorCandidate ds)).take maxSummaries

/-- selector_agent.run_selection_cycle: gather recent summarized candidates,
cap them at maxSummaries, extract at most one URL from the model response, and
transition only a row whose url equals the extracted one; every other outcome
leaves both stores untouched. -/
def runSelectionCycle (threshold maxSummaries : Nat) (o : SelOracle)
    (store : Store) (ds : DocStore) : StepOut :=
  let infos := getRecentSummarizedArticles store threshold
  if infos.isEmpty then { store := store, docs := ds, events := [] }
  else
    let cands := infos.filterMap (selectorCandidate ds)
    if cands.isEmpty then { store := store, docs := ds, events := [] }
    else
      let toSend := cands.take maxSummaries
      if toSend.isEmpty then { store := store, docs := ds, events := [] }
      else
        match o.llm with
        | none => { store := store, docs := ds, events := [] }
        | some resp =>
          match extractSelectedUrl resp with
          | none => { store := store, docs := ds, events := [] }
          | some u =>
            match toSend.find? (fun c => c.url.data = u) with
            | none => { store := store, docs := ds, events := [] }
            | some cand =>
              let mdp := (infos.find? (fun r => r.id = cand.id)).bind Row.cleanedMdPath
              if cand.id ≠ 0 && strTruthy mdp then
                selectorCommit cand.id (mdp.getD "") o.writeOk store ds
              else
                { store := store, docs := ds, events := [] }

/-- generator_agent lines 213-251, the dual-store transition of the Generate
stage: create the brand-new post file first; on reported success update the
Work Store to post_generated with the post path, on reported failure record
generation_failed (create_post_md_file catches all its own exceptions). -/
def generatorCommit (id : Nat) (postPath : String) (meta : List (String × String))
    (body : List Char) (createOk : Bool) (store : Store) (ds : DocStore) : StepOut :=
  let res := createPostMdFile createOk ds postPath meta body
  if res.2 then
    { store := updateArticleStatus store id "post_generated" (some postPath) none,
      docs := res.1,
      events := [.docWriteAttempt postPath true, .dbUpdate id "post_generated"] }
  else
    { store := updateArticleStatus store id "generation_failed" none
                 (some "Ошибка создания MD файла поста"),
      docs := res.1,
      events := [.docWriteAttempt postPath false, .dbUpdate id "generation_failed"] }

/-- Collaborator outcomes for one Generate cycle: the model outcome, the
generated post filename, the generation timestamp and the post-file write
outcome. -/
structure GenOracle where
  llm : LlmOutcome
  postPath : String
  generatedAt : String
  createOk : Bool

/-- generator_agent.run_generation_cycle, with get_selected_article modelled
from the spec (see getSelectedArticle).  When the selected row lacks its id,
its cleaned_md_path or its url, the code moves it back to summarized (line
127); otherwise it reads the cleaned document, calls the model and commits. -/
def runGenerationCycle (o : GenOracle) (store : Store) (ds : DocStore) : StepOut :=
  match getSelectedArticle store with
  | none => { store := store, docs := ds, events := [] }
  | some a =>
    if a.id = 0 || !strTruthy a.cleanedMdPath || a.url = "" then
      if a.id ≠ 0 then
        { store := updateArticleStatus store a.id "summarized" none
                     (some "Неполные данные для генерации поста"),
          docs := ds, events := [.dbUpdate a.id "summarized"] }
      else { store := store, docs := ds, events := [] }
    else
      let path := a.cleanedMdPath.getD ""
      match docRead ds path with
      | none =>
        { store := updateArticleStatus store a.id "generation_failed" none
                     (some "Ошибка чтения исходного MD файла"),
          docs := ds, events := [.dbUpdate a.id "generation_failed"] }
      | some d =>
        if (pyStrip d.body).isEmpty then
          { store := updateArticleStatus store a.id "generation_failed" none
                       (some "Текст статьи пустой"),
            docs := ds, events := [.dbUpdate a.id "generation_failed"] }
        else
          let meta := d.meta.getD []
          let title := ((meta.find? (fun p => p.1 == "title")).map Prod.snd).getD a.title
          let source := ((meta.find? (fun p => p.1 == "source")).map Prod.snd).getD a.sourceName
          let pubDate := ((meta.find? (fun p => p.1 == "publication_date")).map Prod.snd).getD
            a.publicationDate
          match o.llm with
          | .rateLimited details =>
            { store := updateArticleStatus store a.id "generation_failed" none
                         (some ("Превышен лимит API (429): " ++ details)),
              docs := ds, events := [.dbUpdate a.id "generation_failed"] }
          | .apiError details =>
            { store := updateArticleStatus store a.id "generation_failed" none
                         (some ("Ошибка генерации поста: " ++ details)),
              docs := ds, events := [.dbUpdate a.id "generation_failed"] }
          | .noParts =>
            { store := updateArticleStatus store a.id "generation_failed" none
                         (some "Модель ИИ вернула некорректный ответ (нет content/parts)."),
              docs := ds, events := [.dbUpdate a.id "generation_failed"] }
          | .text s =>
            let post := pyStrip s
            if post.isEmpty then
              { store := updateArticleStatus store a.id "generation_failed" none
                           (some "Модель ИИ вернула пустой текст поста."),
                docs := ds, events := [.dbUpdate a.id "generation_failed"] }
            else
              generatorCommit a.id o.postPath
                [("title", title), ("source", source), ("url", a.url),
                 ("publication_date", pubDate),
                 ("original_article_id", toString a.id),
                 ("generated_at", o.generatedAt), ("status", "post_generated")]
                post o.createOk store ds

/-- Outcome of one Telegram delivery call (send_telegram_message returns a
success flag and catches its own errors; an exception in the surrounding code
is still caught by the publisher). -/
inductive SendOutcome where
  | success
  | failure
  | exn
deriving Repr, DecidableEq

/-- publisher_agent.run_publishing_cycle together with _publish_article, with
get_post_to_publish modelled from the spec (see getPostToPublish).
botConfigured mirrors the token/channel check at the start of the cycle. -/
def runPublishingCycle (botConfigured : Bool) (send : SendOutcome)
    (store : Store) (ds : DocStore) : Store :=
  if !botConfigured then store
  else
    match getPostToPublish store with
    | none => store
    | some a =>
      if a.id = 0 then store
      else if !strTruthy a.postMdPath then
        updateArticleStatus store a.id "publish_failed" none
          (some "Неполные данные (нет ID или пути к посту)")
      else
        let path := a.postMdPath.getD ""
        match docRead ds path with
        | none =>
          updateArticleStatus store a.id "publish_failed" none
            (some "Ошибка чтения файла поста")
        | some d =>
          if (pyStrip d.body).isEmpty then
            updateArticleStatus store a.id "publish_failed" none
              (some "Ошибка чтения файла поста: текст поста пустой")
          else
            match send with
            | .success => updateArticleStatus store a.id "published" none none
            | .failure =>
              updateArticleStatus store a.id "publish_failed" none
                (some "Ошибка отправки сообщения в Telegram")
            | .exn =>
              updateArticleStatus store a.id "publish_failed" none
                (some "Неожиданная ошибка при попытке публикации поста")

/-- One RSS entry as the fetcher sees it (title, link, parsed date). -/
structure FeedEntry where
  feedName : String
  title : String
  link : String
  pubDateIso : String

/-- Outcome of downloading one article page. -/
inductive DownloadOutcome where
  | success (html : List Char)
  | failure (err : String)
deriving Repr, DecidableEq

/-- fetcher_agent lines 91-160, the handling of one feed entry: skip entries
without a link, skip entries whose url already exists (or whose existence
check failed, see checkArticleExists), record failed downloads as fetch_failed
rows, and otherwise save the raw JSON (save_json swallows IO errors like
save_md, so only a non-IO exception aborts the entry) and insert the row as
raw_fetched.  connOk/queryOk feed the existence check; addConnOk feeds the
insert. -/
def fetchEntry (connOk queryOk addConnOk : Bool) (store : Store) (entry : FeedEntry)
    (dl : DownloadOutcome) (sj : SaveOutcome) (jsonPath : String)
    (fetchedAt : Nat) : Store :=
  if entry.link = "" then store
  else if checkArticleExists connOk queryOk store entry.link then store
  else
    match dl with
    | .failure err =>
      let res := addArticle addConnOk store entry.feedName entry.title entry.link
        entry.pubDateIso fetchedAt none
      match res.2 with
      | some i =>
        updateArticleStatus res.1 i "fetch_failed" none (some ("Download error: " ++ err))
      | none =>
        match getArticleIdByUrl res.1 entry.link with
        | some i =>
          updateArticleStatus res.1 i "fetch_failed" none (some ("Download error: " ++ err))
        | none => res.1
    | .success _ =>
      match sj with
      | .exn => store
      | _ =>
        (addArticle addConnOk store entry.feedName entry.title entry.link
          entry.pubDateIso fetchedAt (some jsonPath)).1

/-! ## The state graph of spec section 4.1

These definitions follow the words of the spec, not the code: they are the
reference side of the state-machine claims.  The forward chain is
discovered, raw_fetched, cleaned, summarized, selected, post_generated,
published; each stage has a companion failure state, and fetch_failed is
reachable directly from download attempts (the implementation records a
failed download on the row it has just inserted as raw_fetched, so both
discovered and raw_fetched carry an edge to fetch_failed). -/

/-- The directed edges of the spec state graph. -/
def stateGraphEdges : List (String × String) :=
  [("discovered", "raw_fetched"), ("raw_fetched", "cleaned"),
   ("cleaned", "summarized"), ("summarized", "selected"),
   ("selected", "post_generated"), ("post_generated", "published"),
   ("discovered", "fetch_failed"), ("raw_fetched", "fetch_failed"),
   ("raw_fetched", "cleaning_failed"), ("cleaned", "summarize_failed"),
   ("selected", "generation_failed"), ("post_generated", "publish_failed")]

/-- Edge test for the spec state graph. -/
def isGraphEdge (a b : String) : Bool :=
  stateGraphEdges.contains (a, b)

/-- Every status string the pipeline ever writes into the status column. -/
def writtenStatuses : List String :=
  ["raw_fetched", "fetch_failed", "cleaned", "cleaning_failed",
   "summarized", "summarize_failed", "selected",
   "post_generated", "generation_failed", "published", "publish_failed"]

/-- One breadth step of graph reachability. -/
def reachStep (s : List String) : List String :=
  s ++ (stateGraphEdges.filter (fun e => s.contains e.1)).map Prod.snd

/-- Statuses reachable from discovered in at most n steps. -/
def reachN : Nat → List String
  | 0 => ["discovered"]
  | n + 1 => reachStep (reachN n)

/-- Reachability from discovered in the spec state graph (the graph has twelve
edges, so twelve breadth steps saturate). -/
def reachableFromDiscovered (s : String) : Bool :=
  (reachN 12).contains s

/-! ## Derived predicates used by the statements -/

/-- The success statuses of the pipeline (the five statuses a stage records on
a successful transition). -/
def successStatuses : List String :=
  ["cleaned", "summarized", "selected", "post_generated", "published"]

/-- Scan of an event list checking that no Work Store update to a success
status happens before a document write was attempted. -/
def writeFirstAux : List Event → Bool → Bool
  | [], _ => true
  | .docWriteAttempt _ _ :: rest, _ => writeFirstAux rest true
  | .dbUpdate _ s :: rest, seen =>
    (!(successStatuses.contains s) || seen) && writeFirstAux rest seen

/-- Every success-status Work Store update in the event list is preceded by a
document write attempt. -/
def writeFirst (es : List Event) : Bool :=
  writeFirstAux es false

/-- Number of rows currently holding a status. -/
def countStatus (store : Store) (s : String) : Nat :=
  (store.filter (fun r => r.status == s)).length

/-- Number of rows with a given id. -/
def countId (store : Store) (id : Nat) : Nat :=
  (store.filter (fun r => r.id == id)).length

/-- The table invariant provided by the INTEGER PRIMARY KEY column. -/
def idsNodup (store : Store) : Prop :=
  (store.map Row.id).Nodup

/-- The table invariant provided by the UNIQUE constraint on url. -/
def urlsNodup (store : Store) : Prop :=
  (store.map Row.url).Nodup

/-- One row evolves along the spec state graph: its status is unchanged or
moves along a graph edge. -/
def statusAdvances (r r' : Row) : Prop :=
  r'.status = r.status ∨ isGraphEdge r.status r'.status = true

/-- Pointwise status evolution of a whole store. -/
def statusEvolves (store store' : Store) : Prop :=
  List.Forall₂ statusAdvances store store'

/-- Every selected row carries the data the pipeline itself always gives it: a
positive id, a cleaned-document reference and a url (rows reach selected only
through the cleaner, which records cleaned_md_path, and url is NOT NULL). -/
def selectedRowsComplete (store : Store) : Prop :=
  ∀ r ∈ store, r.status = "selected" →
    r.id ≠ 0 ∧ strTruthy r.cleanedMdPath = true ∧ r.url ≠ ""

instance (store : Store) : Decidable (urlsNodup store) := by
  unfold urlsNodup
  infer_instance

instance (store : Store) : Decidable (idsNodup store) := by
  unfold idsNodup
  infer_instance

instance (store : Store) : Decidable (selectedRowsComplete store) := by
  unfold selectedRowsComplete
  infer_instance

/-! ## Concrete fixtures for witnesses and counterexamples -/

/-- A generic row builder for concrete scenarios. -/
def mkRow (id : Nat) (url status : String) : Row :=
  { id := id, sourceName := "src", title := "T", url := url,
    publicationDate := "2025-01-01", fetchedAt := 10, status := status,
    rawJsonPath := some "raw.json", cleanedMdPath := some "doc.md",
    postMdPath := none, errorMessage := none }

/-- A row already selected in an earlier cycle. -/
def exSelected : Row := mkRow 1 "http://a.com" "selected"

/-- A selected row whose cleaned_md_path column is NULL. -/
def exNoPath : Row := { exSelected with cleanedMdPath := none }

/-- A summarized candidate row. -/
def exSummarized : Row :=
  { mkRow 2 "http://b.com" "summarized" with cleanedMdPath := some "b.md", fetchedAt := 11 }

/-- The side-car document of the summarized candidate. -/
def exSummaryDocs : DocStore :=
  [("b.md", { meta := some [("summary", "great")], body := "text".data })]

/-- A row whose post is generated and awaiting publication. -/
def exPost : Row := { mkRow 3 "http://c.com" "post_generated" with postMdPath := some "p.md" }

/-- The post document of the awaiting row. -/
def exPostDocs : DocStore :=
  [("p.md", { meta := some [], body := "post text".data })]

/-- A generation oracle whose collaborators all succeed. -/
def exGenOracle : GenOracle :=
  { llm := .text "post".data, postPath := "p.md", generatedAt := "t", createOk := true }

/-- A freshly fetched row awaiting cleaning. -/
def exRaw : Row := mkRow 4 "http://d.com" "raw_fetched"

/-- A cleaned row awaiting a summary. -/
def exCleaned : Row := mkRow 5 "http://e.com" "cleaned"

/-- A cleaning oracle whose collaborators all succeed. -/
def exCleanOracle : CleanOracle :=
  { loadedHtml := some "<p>x</p>".data, llm := .text "Text".data,
    mdFilePath := "c.md", saveOutcome := .ok }

/-- A summarizing oracle whose collaborators all succeed. -/
def exSummOracle : SummOracle := { llm := .text "Sum".data, writeOk := true }

/-- The cleaned document of exCleaned. -/
def exCleanedDocs : DocStore :=
  [("doc.md", { meta := some [("title", "T")], body := "body".data })]

/-! # Helper lemmas -/

theorem applyUpdate_status (r : Row) (s : String) (fp em : Option String) :
    (applyUpdate r s fp em).status = s := by
  unfold applyUpdate
  split_ifs <;> rfl

theorem forall₂_update {P : Row → Row → Prop} (store : Store) (id : Nat)
    (s : String) (fp em : Option String)
    (hsame : ∀ r ∈ store, r.id ≠ id → P r r)
    (hupd : ∀ r ∈ store, r.id = id → P r (applyUpdate r s fp em)) :
    List.Forall₂ P store (updateArticleStatus store id s fp em) := by
  unfold updateArticleStatus
  rw [List.forall₂_map_right_iff, List.forall₂_same]
  intro r hr
  by_cases h : r.id = id
  · simpa [h] using hupd r hr h
  · simpa [h] using hsame r hr h

theorem statusEvolves_refl (store : Store) : statusEvolves store store :=
  List.forall₂_same.mpr (fun _ _ => Or.inl rfl)

theorem statusEvolves_update (store : Store) (id : Nat) (st : String)
    (fp em : Option String)
    (h : ∀ r ∈ store, r.id = id → isGraphEdge r.status st = true) :
    statusEvolves store (updateArticleStatus store id st fp em) := by
  apply forall₂_update
  · intro r _ _
    exact Or.inl rfl
  · intro r hr hid
    right
    rw [applyUpdate_status]
    exact h r hr hid

theorem nodup_unique_id {store : Store} (hnd : idsNodup store) {a r : Row}
    (ha : a ∈ store) (hr : r ∈ store) (hid : r.id = a.id) : r = a :=
  List.inj_on_of_nodup_map hnd hr ha hid

theorem getPostToPublish_props {store : Store} {a : Row}
    (h : getPostToPublish store = some a) : a ∈ store ∧ a.status = "post_generated" := by
  refine ⟨List.mem_of_find?_eq_some h, ?_⟩
  have := List.find?_some h
  simpa using this

theorem getSelectedArticle_props {store : Store} {a : Row}
    (h : getSelectedArticle store = some a) : a ∈ store ∧ a.status = "selected" := by
  refine ⟨List.mem_of_find?_eq_some h, ?_⟩
  have := List.find?_some h
  simpa using this

theorem getArticleForCleaning_props {store : Store} {id : Nat} {a : Row}
    (h : getArticleForCleaning store id = some a) :
    a ∈ store ∧ a.id = id ∧ a.status = "raw_fetched" := by
  refine ⟨List.mem_of_find?_eq_some h, ?_⟩
  have := List.find?_some h
  simpa using this

/-! # Claim theorems -/

/-- Claim C10: when the Work Store connection cannot be opened or the
existence query fails, check_article_exists reports the article as already
existing, and the fetch step then skips the entry without inserting a row. -/
theorem c10_store_failure_skips_entry :
    (∀ queryOk store url, checkArticleExists false queryOk store url = true) ∧
    (∀ store url, checkArticleExists true false store url = true) ∧
    (∀ queryOk addConnOk store entry dl sj jsonPath fetchedAt,
      fetchEntry false queryOk addConnOk store entry dl sj jsonPath fetchedAt = store) ∧
    (∀ addConnOk store entry dl sj jsonPath fetchedAt,
      fetchEntry true false addConnOk store entry dl sj jsonPath fetchedAt = store) := by
  refine ⟨?_, ?_, ?_, ?_⟩
  · intro queryOk store url
    simp [checkArticleExists]
  · intro store url
    simp [checkArticleExists]
  · intro queryOk addConnOk store entry dl sj jsonPath fetchedAt
    by_cases hl : entry.link = "" <;> simp [fetchEntry, checkArticleExists, hl]
  · intro addConnOk store entry dl sj jsonPath fetchedAt
    by_cases hl : entry.link = "" <;> simp [fetchEntry, checkArticleExists, hl]

/-- Claim C7: update_article_status clears last_error on every success status
and stores the supplied non-empty error text on every failure status. -/
theorem c7_error_field_discipline :
    ∀ r s fp em,
      (s ∈ successStatuses →
        (applyUpdate r s fp em).errorMessage = none ∧ (applyUpdate r s fp em).status = s) ∧
      (∀ e, endsWithFailed s = true → em = some e → e ≠ "" →
        (applyUpdate r s fp em).errorMessage = some e ∧ (applyUpdate r s fp em).status = s) := by
  intro r s fp em
  constructor
  · intro hs
    have h5 : s = "cleaned" ∨ s = "summarized" ∨ s = "selected" ∨
        s = "post_generated" ∨ s = "published" := by
      simpa [successStatuses] using hs
    have e1 : endsWithFailed "cleaned" = false := by decide
    have e2 : endsWithFailed "summarized" = false := by decide
    have e3 : endsWithFailed "selected" = false := by decide
    have e4 : endsWithFailed "post_generated" = false := by decide
    have e5 : endsWithFailed "published" = false := by decide
    rcases h5 with h | h | h | h | h <;> subst h <;>
      simp [applyUpdate, e1, e2, e3, e4, e5] <;> split_ifs <;> simp
  · intro e hf hem hne
    subst hem
    have h1 : s ≠ "cleaned" := by
      intro h
      subst h
      revert hf
      decide
    have h2 : s ≠ "post_generated" := by
      intro h
      subst h
      revert hf
      decide
    have htr : strTruthy (some e) = true := by
      simp [strTruthy, hne]
    simp [applyUpdate, h1, h2, hf, htr]

/-- Claim C6: inserting a work item whose url already exists is rejected
without an error: add_article returns None and leaves the store unchanged, and
insertion preserves the at-most-one-row-per-url invariant. -/
theorem c6_duplicate_insert_rejected :
    (∀ connOk store sourceName title url pubDate fetchedAt rawJsonPath,
      (∃ r ∈ store, r.url = url) →
      addArticle connOk store sourceName title url pubDate fetchedAt rawJsonPath
        = (store, none)) ∧
    (∀ connOk store sourceName title url pubDate fetchedAt rawJsonPath,
      urlsNodup store →
      urlsNodup (addArticle connOk store sourceName title url pubDate fetchedAt rawJsonPath).1) := by
  constructor
  · rintro connOk store sourceName title url pubDate fetchedAt rawJsonPath ⟨r, hr, hurl⟩
    by_cases hc : connOk
    · have hany : store.any (fun q => q.url == url) = true :=
        List.any_eq_true.mpr ⟨r, hr, by simp [hurl]⟩
      simp [addArticle, hc, hany]
    · simp [addArticle, hc]
  · intro connOk store sourceName title url pubDate fetchedAt rawJsonPath hnd
    by_cases hc : connOk
    · by_cases hany : store.any (fun q => q.url == url) = true
      · simpa [addArticle, hc, hany] using hnd
      · have hnotmem : ∀ x ∈ store, ¬x.url = url := by
          intro x hx hxe
          exact hany (List.any_eq_true.mpr ⟨x, hx, by simp [hxe]⟩)
        simp only [addArticle, hc, hany]
        simpa [urlsNodup, List.nodup_append] using ⟨hnd, hnotmem⟩
    · simpa [addArticle, hc] using hnd

/-- Claim C8: the Clean stage truncation is deterministic: the cut is always
the first maxHtmlLength characters, the prompt depends only on that prefix,
and an oversized input is processed exactly like its truncated prefix rather
than being rejected. -/
theorem c8_truncation_deterministic :
    (∀ h, truncateRawHtml h = h.take maxHtmlLength) ∧
    (∀ pre post h₁ h₂, h₁.take maxHtmlLength = h₂.take maxHtmlLength →
      cleaningPrompt pre post h₁ = cleaningPrompt pre post h₂) ∧
    (∀ modelOk llm mdPath save store ds id h,
      processArticle modelOk ⟨some h, llm, mdPath, save⟩ store ds id =
        processArticle modelOk ⟨some (h.take maxHtmlLength), llm, mdPath, save⟩ store ds id) := by
  have htr : ∀ h : List Char, truncateRawHtml h = h.take maxHtmlLength := by
    intro h
    unfold truncateRawHtml
    split_ifs with hlt
    · rfl
    · exact (List.take_of_length_le (le_of_not_lt hlt)).symm
  refine ⟨htr, ?_, ?_⟩
  · intro pre post h₁ h₂ heq
    unfold cleaningPrompt
    rw [htr, htr, heq]
  · intro modelOk llm mdPath save store ds id h
    have key : truncateRawHtml (h.take maxHtmlLength) = truncateRawHtml h := by
      rw [htr, htr, List.take_take, min_self]
    simp only [processArticle, key]

/-- Witness for c8_truncation_deterministic at a concrete input. -/
theorem c8_truncation_deterministic_witness :
    "x".data.take maxHtmlLength = "x".data.take maxHtmlLength ∧
      cleaningPrompt "A: ".data [] "x".data = cleaningPrompt "A: ".data [] "x".data :=
  ⟨rfl, c8_truncation_deterministic.2.1 "A: ".data [] "x".data "x".data rfl⟩

/-- Witness for c7_error_field_discipline at a concrete row and statuses. -/
theorem c7_error_field_discipline_witness :
    "cleaned" ∈ successStatuses ∧
      ((applyUpdate exSelected "cleaned" (some "doc.md") none).errorMessage = none ∧
        (applyUpdate exSelected "cleaned" (some "doc.md") none).status = "cleaned") ∧
      endsWithFailed "publish_failed" = true ∧
      ((applyUpdate exSelected "publish_failed" none (some "boom")).errorMessage = some "boom" ∧
        (applyUpdate exSelected "publish_failed" none (some "boom")).status = "publish_failed") :=
  ⟨by decide,
   (c7_error_field_discipline exSelected "cleaned" (some "doc.md") none).1 (by decide),
   by decide,
   (c7_error_field_discipline exSelected "publish_failed" none (some "boom")).2 "boom"
     (by decide) rfl (by decide)⟩

theorem docRead_docWrite_self (ds : DocStore) (p : String) (d : Doc) :
    docRead (docWrite ds p d) p = some d := by
  induction ds with
  | nil => simp [docWrite, docRead]
  | cons q rest ih =>
    by_cases h : q.1 = p
    · simp [docWrite, docRead, h]
    · simpa [docWrite, docRead, h] using ih

theorem docRead_docWrite_other (ds : DocStore) (p q : String) (d : Doc)
    (hne : q ≠ p) : docRead (docWrite ds p d) q = docRead ds q := by
  have hpq : (p == q) = false := by simp [Ne.symm hne]
  induction ds with
  | nil => simp [docWrite, docRead, List.find?, hpq]
  | cons e rest ih =>
    by_cases h : e.1 = p
    · have hq : (e.1 == q) = false := by simp [h, Ne.symm hne]
      have hp : (e.1 == p) = true := by simp [h]
      simp [docWrite, docRead, List.find?, hp, hq, hpq]
    · have hp : (e.1 == p) = false := by simp [h]
      by_cases hq : e.1 = q
      · have hq' : (e.1 == q) = true := by simp [hq]
        simp [docWrite, docRead, List.find?, hp, hq']
      · have hq' : (e.1 == q) = false := by simp [hq]
        simpa [docWrite, docRead, List.find?, hp, hq'] using ih

theorem docWrite_keys_of_present (ds : DocStore) (p : String) (d d₀ : Doc)
    (h : docRead ds p = some d₀) :
    (docWrite ds p d).map Prod.fst = ds.map Prod.fst := by
  induction ds with
  | nil => simp [docRead] at h
  | cons e rest ih =>
    by_cases he : e.1 = p
    · simp [docWrite, he]
    · have h' : docRead rest p = some d₀ := by
        simpa [docRead, he] using h
      simpa [docWrite, he] using ih h'

theorem find?_filter_key (upd : List (String × String)) (P : String × String → Bool)
    (k : String) (hP : ∀ q : String × String, q.1 = k → P q = true) :
    (upd.filter P).find? (fun q => q.1 == k) = upd.find? (fun q => q.1 == k) := by
  induction upd with
  | nil => simp
  | cons q rest ih =>
    by_cases hk : q.1 = k
    · simp [List.filter_cons, hP q hk, hk]
    · by_cases hPq : P q = true
      · simpa [List.filter_cons, hPq, hk] using ih
      · simpa [List.filter_cons, hPq, hk] using ih

/-- The per-entry function of metaUpdate preserves the key. -/
theorem metaUpdateEntry_key (upd : List (String × String)) (p : String × String) :
    (metaUpdateEntry upd p).1 = p.1 := by
  unfold metaUpdateEntry
  cases upd.find? (fun q => q.1 == p.1) <;> rfl

/-- dict.update semantics at the level of key lookup: the merged dictionary
answers with the update value when the key is updated, and with the original
value otherwise. -/
theorem lookupKey_metaUpdate (m upd : List (String × String)) (k : String) :
    lookupKey (metaUpdate m upd) k = (lookupKey upd k).or (lookupKey m k) := by
  classical
  unfold metaUpdate lookupKey
  rw [List.find?_append, List.find?_map]
  have hpred : ((fun q : String × String => q.1 == k) ∘ metaUpdateEntry upd) =
      fun p : String × String => p.1 == k := by
    funext p
    simp [Function.comp, metaUpdateEntry_key upd p]
  rw [hpred]
  by_cases hk : ∃ p ∈ m, p.1 = k
  · obtain ⟨p₀, hp₀, hpk⟩ := hk
    have hsome : (List.find? (fun p : String × String => p.1 == k) m).isSome = true :=
      List.find?_isSome.mpr ⟨p₀, hp₀, by simp [hpk]⟩
    obtain ⟨p₁, hp₁⟩ := Option.isSome_iff_exists.mp hsome
    have hp₁k : p₁.1 = k := by simpa using List.find?_some hp₁
    rw [hp₁]
    have hentry : metaUpdateEntry upd p₁ =
        match upd.find? (fun q => q.1 == k) with
        | some q => (p₁.1, q.2)
        | none => p₁ := by
      unfold metaUpdateEntry
      rw [hp₁k]
    cases hud : upd.find? (fun q => q.1 == k) with
    | none => simp [hentry, hud]
    | some qq => simp [hentry, hud]
  · have hnone : List.find? (fun p : String × String => p.1 == k) m = none := by
      rw [List.find?_eq_none]
      intro p hp hpk
      exact hk ⟨p, hp, by simpa using hpk⟩
    rw [hnone]
    have hfil := find?_filter_key upd
      (fun q => !(m.any (fun p => p.1 == q.1))) k
      (fun q hq => by
        have : m.any (fun p => p.1 == k) = false := by
          rw [List.any_eq_false]
          intro p hp hpk
          exact hk ⟨p, hp, by simpa using hpk⟩
        simp [hq, this])
    rw [hfil]
    cases upd.find? (fun q => q.1 == k) <;> simp

/-- Claim C9: the Summarize success path mutates only the existing cleaned
document: it merges the summary and status keys into that document's front
matter, leaves every other front-matter key and the body unchanged, touches no
other document and creates no new file. -/
theorem c9_summarize_mutates_only_existing_doc
    (ds : DocStore) (path : String) (d : Doc) (m : List (String × String))
    (summary : List Char) (store : Store) (id : Nat)
    (h1 : docRead ds path = some d) (h2 : d.meta = some m) :
    docRead (summarizerCommit id path summary true store ds).docs path =
      some { meta := some (metaUpdate m
               [("summary", String.mk summary), ("status", "summarized")]),
             body := d.body } ∧
    (∀ q, q ≠ path →
      docRead (summarizerCommit id path summary true store ds).docs q = docRead ds q) ∧
    (summarizerCommit id path summary true store ds).docs.map Prod.fst =
      ds.map Prod.fst ∧
    lookupKey (metaUpdate m [("summary", String.mk summary), ("status", "summarized")])
      "summary" = some (String.mk summary) ∧
    lookupKey (metaUpdate m [("summary", String.mk summary), ("status", "summarized")])
      "status" = some "summarized" ∧
    (∀ k, k ≠ "summary" → k ≠ "status" →
      lookupKey (metaUpdate m [("summary", String.mk summary), ("status", "summarized")]) k =
        lookupKey m k) := by
  have hdocs : (summarizerCommit id path summary true store ds).docs =
      docWrite ds path
        { meta := some (metaUpdate m
            [("summary", String.mk summary), ("status", "summarized")]),
          body := d.body } := by
    unfold summarizerCommit updateMdYaml
    rw [h1]
    simp [h2]
  refine ⟨?_, ?_, ?_, ?_, ?_, ?_⟩
  · rw [hdocs, docRead_docWrite_self]
  · intro q hq
    rw [hdocs, docRead_docWrite_other _ _ _ _ hq]
  · rw [hdocs]
    exact docWrite_keys_of_present ds path _ d h1
  · rw [lookupKey_metaUpdate]
    simp [lookupKey, List.find?]
  · rw [lookupKey_metaUpdate]
    simp [lookupKey, List.find?]
  · intro k hk1 hk2
    rw [lookupKey_metaUpdate]
    have h3 : (("summary" : String) == k) = false := by simp [Ne.symm hk1]
    have h4 : (("status" : String) == k) = false := by simp [Ne.symm hk2]
    simp [lookupKey, List.find?, h3, h4]

/-- Witness for c9_summarize_mutates_only_existing_doc at a concrete document
store. -/
theorem c9_summarize_mutates_only_existing_doc_witness :
    docRead exSummaryDocs "b.md" =
      some { meta := some [("summary", "great")], body := "text".data } ∧
    docRead (summarizerCommit 2 "b.md" "sum".data true [exSummarized] exSummaryDocs).docs
      "b.md" =
      some { meta := some (metaUpdate [("summary", "great")]
               [("summary", String.mk "sum".data), ("status", "summarized")]),
             body := "text".data } :=
  ⟨by decide,
   (c9_summarize_mutates_only_existing_doc exSummaryDocs "b.md"
     { meta := some [("summary", "great")], body := "text".data }
     [("summary", "great")] "sum".data [exSummarized] 2 (by decide) rfl).1⟩

/-- Claim C1 counterexample: in the Clean stage, a document write that fails
with an IO error is swallowed by save_md, so nothing is written to the
Document Store and the Work Store is still updated to the success status
cleaned with a reference to the never-written file — the claim says the
status would be updated only if the write succeeds (and left unchanged on
failure). -/
theorem c1_counterexample :
    (cleanerCommit exSummarized "Hello world".data "x.md" SaveOutcome.ioError
      [exSummarized] []).docs = [] ∧
    (cleanerCommit exSummarized "Hello world".data "x.md" SaveOutcome.ioError
      [exSummarized] []).store.map Row.status = ["cleaned"] ∧
    (cleanerCommit exSummarized "Hello world".data "x.md" SaveOutcome.ioError
      [exSummarized] []).events =
      [Event.docWriteAttempt "x.md" false, Event.dbUpdate 2 "cleaned"] := by
  decide

/-- Claim C1 as amended: in every stage the document write is attempted before
any Work Store update; a reported write failure leaves the Work Store
untouched in Summarize and Select, records generation_failed in Generate, and
in Clean an IO-failing save is swallowed (the row still becomes cleaned with
the dangling path) while a non-IO exception records cleaning_failed. -/
theorem c1_amended_write_then_update :
    (∀ a cleaned mdPath save store ds,
      writeFirst (cleanerCommit a cleaned mdPath save store ds).events = true) ∧
    (∀ id mdPath summary writeOk store ds,
      writeFirst (summarizerCommit id mdPath summary writeOk store ds).events = true) ∧
    (∀ id mdPath writeOk store ds,
      writeFirst (selectorCommit id mdPath writeOk store ds).events = true) ∧
    (∀ id postPath meta body createOk store ds,
      writeFirst (generatorCommit id postPath meta body createOk store ds).events = true) ∧
    (∀ id mdPath summary writeOk store ds,
      (updateMdYaml writeOk ds mdPath
        [("summary", String.mk summary), ("status", "summarized")]).2 = false →
      (summarizerCommit id mdPath summary writeOk store ds).store = store) ∧
    (∀ id mdPath writeOk store ds,
      (updateMdYaml writeOk ds mdPath [("status", "selected")]).2 = false →
      (selectorCommit id mdPath writeOk store ds).store = store) ∧
    (∀ id postPath meta body store ds,
      List.Forall₂
        (fun r r' => (r.id ≠ id ∧ r' = r) ∨ (r.id = id ∧ r'.status = "generation_failed"))
        store (generatorCommit id postPath meta body false store ds).store) ∧
    (∀ a cleaned mdPath store ds, mdPath ≠ "" →
      (cleanerCommit a cleaned mdPath SaveOutcome.ioError store ds).docs = ds ∧
      List.Forall₂
        (fun r r' => (r.id ≠ a.id ∧ r' = r) ∨
          (r.id = a.id ∧ r'.status = "cleaned" ∧ r'.cleanedMdPath = some mdPath))
        store (cleanerCommit a cleaned mdPath SaveOutcome.ioError store ds).store) ∧
    (∀ a cleaned mdPath store ds,
      List.Forall₂
        (fun r r' => (r.id ≠ a.id ∧ r' = r) ∨ (r.id = a.id ∧ r'.status = "cleaning_failed"))
        store (cleanerCommit a cleaned mdPath SaveOutcome.exn store ds).store) := by
  refine ⟨?_, ?_, ?_, ?_, ?_, ?_, ?_, ?_, ?_⟩
  · intro a cleaned mdPath save store ds
    cases save <;> simp [cleanerCommit, writeFirst, writeFirstAux]
  · intro id mdPath summary writeOk store ds
    cases h : (updateMdYaml writeOk ds mdPath
        [("summary", String.mk summary), ("status", "summarized")]).2 <;>
      simp [summarizerCommit, h, writeFirst, writeFirstAux]
  · intro id mdPath writeOk store ds
    cases h : (updateMdYaml writeOk ds mdPath [("status", "selected")]).2 <;>
      simp [selectorCommit, h, writeFirst, writeFirstAux]
  · intro id postPath meta body createOk store ds
    cases h : (createPostMdFile createOk ds postPath meta body).2 <;>
      simp [generatorCommit, h, writeFirst, writeFirstAux]
  · intro id mdPath summary writeOk store ds h
    simp [summarizerCommit, h]
  · intro id mdPath writeOk store ds h
    simp [selectorCommit, h]
  · intro id postPath meta body store ds
    have hres : createPostMdFile false ds postPath meta body = (ds, false) := by
      simp [createPostMdFile]
    simp only [generatorCommit, hres]
    apply forall₂_update
    · intro r _ hne
      exact Or.inl ⟨hne, rfl⟩
    · intro r _ hid
      exact Or.inr ⟨hid, applyUpdate_status r _ _ _⟩
  · intro a cleaned mdPath store ds hmd
    refine ⟨rfl, ?_⟩
    apply forall₂_update
    · intro r _ hne
      exact Or.inl ⟨hne, rfl⟩
    · intro r _ hid
      refine Or.inr ⟨hid, ?_, ?_⟩ <;> simp [applyUpdate, strTruthy, hmd]
  · intro a cleaned mdPath store ds
    apply forall₂_update
    · intro r _ hne
      exact Or.inl ⟨hne, rfl⟩
    · intro r _ hid
      exact Or.inr ⟨hid, applyUpdate_status r _ _ _⟩

/-- Witness for c1_amended_write_then_update at concrete inputs. -/
theorem c1_amended_write_then_update_witness :
    (updateMdYaml false exSummaryDocs "b.md"
      [("summary", String.mk "s".data), ("status", "summarized")]).2 = false ∧
    (summarizerCommit 2 "b.md" "s".data false [exSummarized] exSummaryDocs).store
      = [exSummarized] ∧
    (updateMdYaml false exSummaryDocs "b.md" [("status", "selected")]).2 = false ∧
    (selectorCommit 2 "b.md" false [exSummarized] exSummaryDocs).store = [exSummarized] ∧
    ("x.md" : String) ≠ "" ∧
    (cleanerCommit exSummarized "Hi".data "x.md" SaveOutcome.ioError [] []).docs = [] :=
  ⟨by decide,
   c1_amended_write_then_update.2.2.2.2.1 2 "b.md" "s".data false [exSummarized]
     exSummaryDocs (by decide),
   by decide,
   c1_amended_write_then_update.2.2.2.2.2.1 2 "b.md" false [exSummarized]
     exSummaryDocs (by decide),
   by decide,
   (c1_amended_write_then_update.2.2.2.2.2.2.2.1 exSummarized "Hi".data "x.md" [] []
     (by decide)).1⟩

/-- Claim C5 counterexample: after the delivery collaborator fails for the
post_generated item, the item moves to publish_failed with a non-empty error
(that half of the claim holds), but it is thereby removed from Publish
eligibility (selection requires status post_generated), so a second cycle with
a succeeding collaborator leaves it in publish_failed instead of published. -/
theorem c5_counterexample :
    (runPublishingCycle true SendOutcome.failure [exPost] exPostDocs).map Row.status
      = ["publish_failed"] ∧
    runPublishingCycle true SendOutcome.success
        (runPublishingCycle true SendOutcome.failure [exPost] exPostDocs) exPostDocs
      = runPublishingCycle true SendOutcome.failure [exPost] exPostDocs := by
  decide

/-- Claim C5 as amended: a Publish cycle whose delivery fails moves the
eligible item to publish_failed with non-empty error text, and that failure
status is terminal for the automatic pipeline — a later Publish cycle never
touches a publish_failed row (retry requires manual intervention). -/
theorem c5_amended_publish_failure_is_terminal :
    (∀ store ds a d, getPostToPublish store = some a → a.id ≠ 0 →
      strTruthy a.postMdPath = true →
      docRead ds (a.postMdPath.getD "") = some d →
      (pyStrip d.body).isEmpty = false →
      List.Forall₂
        (fun r r' => r.id = a.id →
          r'.status = "publish_failed" ∧ ∃ e, r'.errorMessage = some e ∧ e ≠ "")
        store (runPublishingCycle true SendOutcome.failure store ds)) ∧
    (∀ b send store ds, idsNodup store →
      List.Forall₂ (fun r r' => r.status = "publish_failed" → r' = r)
        store (runPublishingCycle b send store ds)) := by
  constructor
  · intro store ds a d hfind hid hpmd hdr hbody
    have hmsg : strTruthy (some "Ошибка отправки сообщения в Telegram") = true := by
      decide
    have hfail : endsWithFailed "publish_failed" = true := by decide
    simp only [runPublishingCycle, hfind, Bool.not_true, hpmd, hdr, hbody, hid,
      Bool.false_eq_true, if_false, if_neg hid]
    apply forall₂_update
    · intro r _ hne hid'
      exact absurd hid' hne
    · intro r _ hid' _
      refine ⟨applyUpdate_status r _ _ _, "Ошибка отправки сообщения в Telegram", ?_, by decide⟩
      simp [applyUpdate, hfail, hmsg]
  · intro b send store ds hnd
    have hrefl : List.Forall₂ (fun r r' : Row => r.status = "publish_failed" → r' = r)
        store store :=
      List.forall₂_same.mpr (fun _ _ _ => rfl)
    cases b with
    | false => exact hrefl
    | true =>
      cases hfind : getPostToPublish store with
      | none =>
        simp only [runPublishingCycle, hfind]
        exact hrefl
      | some a =>
        obtain ⟨ha, hstat⟩ := getPostToPublish_props hfind
        have hupd : ∀ st fp em,
            List.Forall₂ (fun r r' : Row => r.status = "publish_failed" → r' = r)
              store (updateArticleStatus store a.id st fp em) := by
          intro st fp em
          apply forall₂_update
          · intro r _ _ _
            exact rfl
          · intro r hr hid hpf
            have hra : r = a := nodup_unique_id hnd ha hr hid
            rw [hra, hstat] at hpf
            exact absurd hpf (by decide)
        simp only [runPublishingCycle, hfind]
        split_ifs with h1 h2 h3
        · exact hrefl
        · exact hrefl
        · exact hupd _ _ _
        · cases hdr : docRead ds (a.postMdPath.getD "") with
          | none => exact hupd _ _ _
          | some d =>
            dsimp only
            split_ifs with h4
            · exact hupd _ _ _
            · cases send <;> exact hupd _ _ _

/-- Witness for c5_amended_publish_failure_is_terminal at a concrete store. -/
theorem c5_amended_publish_failure_is_terminal_witness :
    getPostToPublish [exPost] = some exPost ∧
    idsNodup [exPost] ∧
    List.Forall₂
      (fun r r' => r.id = exPost.id →
        r'.status = "publish_failed" ∧ ∃ e, r'.errorMessage = some e ∧ e ≠ "")
      [exPost] (runPublishingCycle true SendOutcome.failure [exPost] exPostDocs) ∧
    List.Forall₂ (fun r r' => r.status = "publish_failed" → r' = r)
      [exPost] (runPublishingCycle true SendOutcome.success [exPost] exPostDocs) :=
  ⟨by decide, by decide,
   c5_amended_publish_failure_is_terminal.1 [exPost] exPostDocs exPost
     { meta := some [], body := "post text".data } (by decide) (by decide) (by decide)
     (by decide) (by decide),
   c5_amended_publish_failure_is_terminal.2 true SendOutcome.success [exPost] exPostDocs
     (by decide)⟩

theorem countId_le_one_of_nodup {store : Store} (hnd : idsNodup store) (id : Nat) :
    countId store id ≤ 1 := by
  induction store with
  | nil => simp [countId]
  | cons r rest ih =>
    have hcons := List.nodup_cons.mp hnd
    by_cases hid : r.id = id
    · have hzero : countId rest id = 0 := by
        unfold countId
        rw [List.length_eq_zero, List.filter_eq_nil_iff]
        intro x hx hpx
        exact hcons.1 (hid ▸ List.mem_map.mpr ⟨x, hx, by simpa using hpx⟩)
      unfold countId at *
      simp [List.filter_cons, hid, hzero]
    · unfold countId at *
      simpa [List.filter_cons, hid] using ih hcons.2

theorem countStatus_update_le (store : Store) (id : Nat) (st : String)
    (fp em : Option String) (sel : String) :
    countStatus (updateArticleStatus store id st fp em) sel ≤
      countStatus store sel + countId store id := by
  induction store with
  | nil => simp [updateArticleStatus, countStatus, countId]
  | cons r rest ih =>
    unfold countStatus countId updateArticleStatus at *
    simp only [List.map_cons, List.filter_cons]
    by_cases hid : r.id = id <;> split_ifs <;> simp_all <;> omega

/-- Claim C3 counterexample: the Select cycle never clears a previously
selected item, so starting from a store holding one selected item (not yet
consumed by Generate) and one summarized candidate, a completed Select cycle
leaves two items in status selected. -/
theorem c3_counterexample :
    countStatus [exSelected, exSummarized] "selected" = 1 ∧
    countStatus (runSelectionCycle 0 50
        { llm := some "http://b.com".data, writeOk := true }
        [exSelected, exSummarized] exSummaryDocs).store "selected" = 2 := by
  decide

/-- Claim C3 as amended: one Select cycle sets status selected on at most one
row, so the number of selected items grows by at most one per cycle; the
store-wide at-most-one bound therefore holds only when no item was already
selected before the cycle. -/
theorem c3_amended_select_adds_at_most_one :
    ∀ threshold maxSummaries o store ds, idsNodup store →
      countStatus (runSelectionCycle threshold maxSummaries o store ds).store "selected" ≤
        countStatus store "selected" + 1 := by
  intro threshold maxSummaries o store ds hnd
  have hcommit : ∀ id path w,
      countStatus (selectorCommit id path w store ds).store "selected" ≤
        countStatus store "selected" + 1 := by
    intro id path w
    by_cases h : (updateMdYaml w ds path [("status", "selected")]).2 = true
    · simp only [selectorCommit, h, if_true]
      calc countStatus (updateArticleStatus store id "selected" none none) "selected"
          ≤ countStatus store "selected" + countId store id :=
            countStatus_update_le store id "selected" none none "selected"
        _ ≤ countStatus store "selected" + 1 := by
            have := countId_le_one_of_nodup hnd id
            omega
    · simp only [selectorCommit, h]
      simp only [Bool.false_eq_true, if_false]
      exact Nat.le_add_right _ _
  simp only [runSelectionCycle]
  repeat' first
  | exact Nat.le_add_right _ _
  | exact hcommit _ _ _
  | split

/-- Witness for c3_amended_select_adds_at_most_one at a concrete store. -/
theorem c3_amended_select_adds_at_most_one_witness :
    idsNodup [exSelected, exSummarized] ∧
    countStatus (runSelectionCycle 0 50
        { llm := some "http://b.com".data, writeOk := true }
        [exSelected, exSummarized] exSummaryDocs).store "selected" ≤
      countStatus [exSelected, exSummarized] "selected" + 1 :=
  ⟨by decide,
   c3_amended_select_adds_at_most_one 0 50
     { llm := some "http://b.com".data, writeOk := true }
     [exSelected, exSummarized] exSummaryDocs (by decide)⟩

theorem selectorCandidate_eq {ds : DocStore} {r r' : Row}
    (h : selectorCandidate ds r = some r') : r' = r := by
  unfold selectorCandidate at h
  repeat' split at h
  all_goals simp_all

theorem mem_getRecentSummarized {store : Store} {threshold : Nat} {r : Row}
    (h : r ∈ getRecentSummarizedArticles store threshold) :
    r ∈ store ∧ r.status = "summarized" := by
  unfold getRecentSummarizedArticles at h
  have hmem := (List.perm_insertionSort _ _).mem_iff.mp h
  rcases List.mem_filter.mp hmem with ⟨hin, hcond⟩
  refine ⟨hin, ?_⟩
  simp at hcond
  exact hcond.1

theorem candidate_mem {store : Store} {threshold maxN : Nat} {ds : DocStore} {c : Row}
    (h : c ∈ ((getRecentSummarizedArticles store threshold).filterMap
      (selectorCandidate ds)).take maxN) : c ∈ store ∧ c.status = "summarized" := by
  have h1 := List.take_subset _ _ h
  rcases List.mem_filterMap.mp h1 with ⟨a, ha, heq⟩
  have hca := selectorCandidate_eq heq
  subst hca
  exact mem_getRecentSummarized ha

/-- Claim C4: the Select stage transitions an item only when the response
holds exactly one well-formed URL that matches an offered candidate; a missing
response, zero or several URLs, or a URL matching none of the offered
candidates (also when it names a stored summarized row that was left out of
the offer by the recency window, the candidate cap or a missing summary) each
leave both stores untouched with no event at all; any store change certifies a
uniquely extracted URL belonging to an offered summarized candidate, and under
the url UNIQUE constraint that URL matches exactly one offered candidate. -/
theorem c4_select_requires_unique_candidate_url :
    (∀ resp u, extractSelectedUrl resp = some u → findUrls resp = [u]) ∧
    (∀ threshold maxSummaries w store ds,
      runSelectionCycle threshold maxSummaries { llm := none, writeOk := w } store ds
        = { store := store, docs := ds, events := [] }) ∧
    (∀ threshold maxSummaries resp w store ds, extractSelectedUrl resp = none →
      runSelectionCycle threshold maxSummaries { llm := some resp, writeOk := w } store ds
        = { store := store, docs := ds, events := [] }) ∧
    (∀ threshold maxSummaries resp w store ds u, extractSelectedUrl resp = some u →
      (∀ c ∈ offeredCandidates store ds threshold maxSummaries, c.url.data ≠ u) →
      runSelectionCycle threshold maxSummaries { llm := some resp, writeOk := w } store ds
        = { store := store, docs := ds, events := [] }) ∧
    (∀ threshold maxSummaries o store ds,
      (runSelectionCycle threshold maxSummaries o store ds).store ≠ store →
      ∃ resp u, o.llm = some resp ∧ extractSelectedUrl resp = some u ∧
        findUrls resp = [u] ∧
        ∃ c ∈ offeredCandidates store ds threshold maxSummaries,
          c.url.data = u ∧ c ∈ store ∧ c.status = "summarized") ∧
    (∀ threshold maxSummaries store ds u, urlsNodup store →
      ∀ c₁ ∈ offeredCandidates store ds threshold maxSummaries,
      ∀ c₂ ∈ offeredCandidates store ds threshold maxSummaries,
      c₁.url.data = u → c₂.url.data = u → c₁ = c₂) := by
  have h1 : ∀ resp u, extractSelectedUrl resp = some u → findUrls resp = [u] := by
    intro resp u h
    unfold extractSelectedUrl at h
    split at h
    · split_ifs at h with hv
      · cases h
        assumption
    · cases h
  have h2 : ∀ threshold maxSummaries w store ds,
      runSelectionCycle threshold maxSummaries { llm := none, writeOk := w } store ds
        = { store := store, docs := ds, events := [] } := by
    intro threshold maxSummaries w store ds
    simp only [runSelectionCycle]
    repeat' first
    | rfl
    | split
  have h3 : ∀ threshold maxSummaries resp w store ds, extractSelectedUrl resp = none →
      runSelectionCycle threshold maxSummaries { llm := some resp, writeOk := w } store ds
        = { store := store, docs := ds, events := [] } := by
    intro threshold maxSummaries resp w store ds h
    simp only [runSelectionCycle, h]
    repeat' first
    | rfl
    | split
  have h4 : ∀ threshold maxSummaries resp w store ds u, extractSelectedUrl resp = some u →
      (∀ c ∈ offeredCandidates store ds threshold maxSummaries, c.url.data ≠ u) →
      runSelectionCycle threshold maxSummaries { llm := some resp, writeOk := w } store ds
        = { store := store, docs := ds, events := [] } := by
    intro threshold maxSummaries resp w store ds u h hno
    have hfind : (((getRecentSummarizedArticles store threshold).filterMap
        (selectorCandidate ds)).take maxSummaries).find?
          (fun c => c.url.data = u) = none := by
      rw [List.find?_eq_none]
      intro c hc
      simp [hno c hc]
    simp only [runSelectionCycle, h, hfind]
    repeat' first
    | rfl
    | split
  refine ⟨h1, h2, h3, h4, ?_, ?_⟩
  · intro threshold maxSummaries o store ds hne
    obtain ⟨llmo, w⟩ := o
    cases llmo with
    | none =>
      rw [h2 threshold maxSummaries w store ds] at hne
      exact absurd rfl hne
    | some resp =>
      cases hext : extractSelectedUrl resp with
      | none =>
        rw [h3 threshold maxSummaries resp w store ds hext] at hne
        exact absurd rfl hne
      | some u =>
        refine ⟨resp, u, rfl, hext, h1 resp u hext, ?_⟩
        simp only [runSelectionCycle, hext] at hne
        split at hne
        · exact absurd rfl hne
        · split at hne
          · exact absurd rfl hne
          · split at hne
            · exact absurd rfl hne
            · split at hne
              · exact absurd rfl hne
              · rename_i cand hfin
                have hmem := List.mem_of_find?_eq_some hfin
                have hm := candidate_mem hmem
                have hurl : cand.url.data = u := by
                  simpa using List.find?_some hfin
                exact ⟨cand, hmem, hurl, hm.1, hm.2⟩
  · intro threshold maxSummaries store ds u hnd c₁ h₁ c₂ h₂ hu₁ hu₂
    have m₁ := candidate_mem h₁
    have m₂ := candidate_mem h₂
    have hdata : c₁.url.data = c₂.url.data := hu₁.trans hu₂.symm
    have hurl : c₁.url = c₂.url := by
      cases hc₁ : c₁.url
      cases hc₂ : c₂.url
      rw [hc₁, hc₂] at hdata
      simp at hdata
      rw [hdata]
    exact List.inj_on_of_nodup_map hnd m₁.1 m₂.1 hurl

/-- Witness for c4_select_requires_unique_candidate_url at concrete inputs:
a two-URL response is a no-op, and a response naming the url of a stored
summarized row that was not offered (it lies outside the recency window) is
also a complete no-op. -/
theorem c4_select_requires_unique_candidate_url_witness :
    extractSelectedUrl "pick http://a.com and http://b.com".data = none ∧
    runSelectionCycle 0 50
        { llm := some "pick http://a.com and http://b.com".data, writeOk := true }
        [exSelected, exSummarized] exSummaryDocs
      = { store := [exSelected, exSummarized], docs := exSummaryDocs, events := [] } ∧
    extractSelectedUrl "http://b.com".data = some "http://b.com".data ∧
    (∀ c ∈ offeredCandidates [exSummarized] exSummaryDocs 100 50,
      c.url.data ≠ "http://b.com".data) ∧
    runSelectionCycle 100 50
        { llm := some "http://b.com".data, writeOk := true }
        [exSummarized] exSummaryDocs
      = { store := [exSummarized], docs := exSummaryDocs, events := [] } ∧
    urlsNodup [exSelected, exSummarized] :=
  ⟨by decide,
   c4_select_requires_unique_candidate_url.2.2.1 0 50
     "pick http://a.com and http://b.com".data true [exSelected, exSummarized]
     exSummaryDocs (by decide),
   by decide,
   by decide,
   c4_select_requires_unique_candidate_url.2.2.2.1 100 50
     "http://b.com".data true [exSummarized] exSummaryDocs
     "http://b.com".data (by decide) (by decide),
   by decide⟩

theorem le_foldr_max {l : List Nat} {x : Nat} (h : x ∈ l) : x ≤ l.foldr Nat.max 0 := by
  induction l with
  | nil => cases h
  | cons y ys ih =>
    rcases List.mem_cons.mp h with h | h
    · subst h
      exact Nat.le_max_left _ _
    · exact Nat.le_trans (ih h) (Nat.le_max_right _ _)

theorem id_le_maxId {store : Store} {r : Row} (h : r ∈ store) : r.id ≤ maxId store :=
  le_foldr_max (List.mem_map.mpr ⟨r, h, rfl⟩)

theorem statusEvolves_update_row {store : Store} (hnd : idsNodup store) {a : Row}
    (ha : a ∈ store) (st : String) (fp em : Option String)
    (hedge : isGraphEdge a.status st = true) :
    statusEvolves store (updateArticleStatus store a.id st fp em) := by
  apply statusEvolves_update
  intro r hr hid
  rw [nodup_unique_id hnd ha hr hid]
  exact hedge

theorem update_append_fresh (store : Store) (x : Row) (st : String)
    (fp em : Option String) (hx : ∀ r ∈ store, r.id ≠ x.id) :
    updateArticleStatus (store ++ [x]) x.id st fp em =
      store ++ [applyUpdate x st fp em] := by
  unfold updateArticleStatus
  rw [List.map_append]
  congr 1
  · conv_rhs => rw [← List.map_id store]
    apply List.map_congr_left
    intro r hr
    simp [hx r hr]
  · simp

theorem checkArticleExists_false {connOk queryOk : Bool} {store : Store} {url : String}
    (h : checkArticleExists connOk queryOk store url = false) :
    connOk = true ∧ queryOk = true ∧ store.any (fun r => r.url == url) = false := by
  unfold checkArticleExists at h
  cases connOk <;> cases queryOk <;> simp_all

/-- Claim C2 counterexample: the Generate cycle moves a selected row whose
cleaned_md_path column is NULL backwards to summarized (generator_agent line
127), and selected to summarized is not an edge of the state graph. -/
theorem c2_counterexample :
    exNoPath.status = "selected" ∧
    (runGenerationCycle exGenOracle [exNoPath] []).store.map Row.status = ["summarized"] ∧
    isGraphEdge "selected" "summarized" = false := by
  decide

/-- Claim C2 as amended: every store-changing operation of the pipeline moves
each row only along the spec state graph (forward or into the corresponding
failure status) — with one exception, the Generate incomplete-row branch,
excluded here by the hypothesis that selected rows carry id, url and
cleaned-document reference (which every row selected by the pipeline itself
does); new rows enter at raw_fetched or fetch_failed, and every status the
pipeline writes is reachable from discovered.  The cleaner is taken with
modelOk true, as its caller handle_cleaning_request returns before invoking it
when the model is missing. -/
theorem c2_amended_status_machine :
    (∀ o store ds articleId, idsNodup store →
      statusEvolves store (processArticle true o store ds articleId).store) ∧
    (∀ o store ds articleId mdPath, idsNodup store →
      (∃ r ∈ store, r.id = articleId ∧ r.status = "cleaned") →
      statusEvolves store (processArticleSummary o store ds articleId mdPath).store) ∧
    (∀ threshold maxSummaries o store ds, idsNodup store →
      statusEvolves store (runSelectionCycle threshold maxSummaries o store ds).store) ∧
    (∀ o store ds, idsNodup store → selectedRowsComplete store →
      statusEvolves store (runGenerationCycle o store ds).store) ∧
    (∀ b send store ds, idsNodup store →
      statusEvolves store (runPublishingCycle b send store ds)) ∧
    (∀ connOk queryOk addConnOk store entry dl sj jsonPath fetchedAt,
      ∃ tail, fetchEntry connOk queryOk addConnOk store entry dl sj jsonPath fetchedAt
          = store ++ tail ∧
        ∀ r ∈ tail, r.status = "raw_fetched" ∨ r.status = "fetch_failed") ∧
    writtenStatuses.all reachableFromDiscovered = true := by
  refine ⟨?_, ?_, ?_, ?_, ?_, ?_, by decide⟩
  · -- Clean
    intro o store ds articleId hnd
    simp only [processArticle, cleanerCommit]
    split
    · rename_i hbad
      simp at hbad
    · split
      · exact statusEvolves_refl store
      · rename_i a hfind
        obtain ⟨ha, haid, hstat⟩ := getArticleForCleaning_props hfind
        rw [← haid]
        have hgo : ∀ st fp em, isGraphEdge "raw_fetched" st = true →
            statusEvolves store (updateArticleStatus store a.id st fp em) := by
          intro st fp em hedge
          refine statusEvolves_update_row hnd ha st fp em ?_
          rw [hstat]
          exact hedge
        repeat' first
        | exact hgo _ _ _ (by decide)
        | exact statusEvolves_refl store
        | split
  · -- Summarize
    rintro o store ds articleId mdPath hnd ⟨r₀, hr₀, hr₀id, hr₀stat⟩
    subst hr₀id
    have hgo : ∀ st fp em, isGraphEdge "cleaned" st = true →
        statusEvolves store (updateArticleStatus store r₀.id st fp em) := by
      intro st fp em hedge
      refine statusEvolves_update_row hnd hr₀ st fp em ?_
      rw [hr₀stat]
      exact hedge
    simp only [processArticleSummary, summarizerCommit]
    repeat' first
    | exact hgo _ _ _ (by decide)
    | exact statusEvolves_refl store
    | split
  · -- Select
    intro threshold maxSummaries o store ds hnd
    simp only [runSelectionCycle, selectorCommit]
    split
    · exact statusEvolves_refl store
    · split
      · exact statusEvolves_refl store
      · split
        · exact statusEvolves_refl store
        · split
          · exact statusEvolves_refl store
          · split
            · exact statusEvolves_refl store
            · split
              · exact statusEvolves_refl store
              · rename_i cand hfin
                split
                · split
                  · have hm := candidate_mem (List.mem_of_find?_eq_some hfin)
                    exact statusEvolves_update_row hnd hm.1 _ _ _ (by rw [hm.2]; decide)
                  · exact statusEvolves_refl store
                · exact statusEvolves_refl store
  · -- Generate
    intro o store ds hnd hcomp
    cases hfind : getSelectedArticle store with
    | none =>
      simp only [runGenerationCycle, hfind]
      exact statusEvolves_refl store
    | some a =>
      obtain ⟨ha, hstat⟩ := getSelectedArticle_props hfind
      obtain ⟨hid0, hpath, hurl⟩ := hcomp a ha hstat
      have hgo : ∀ st fp em, isGraphEdge "selected" st = true →
          statusEvolves store (updateArticleStatus store a.id st fp em) := by
        intro st fp em hedge
        refine statusEvolves_update_row hnd ha st fp em ?_
        rw [hstat]
        exact hedge
      simp only [runGenerationCycle, hfind, generatorCommit]
      split
      · rename_i hbad
        exfalso
        revert hbad
        simp [hid0, hpath, hurl]
      · repeat' first
        | exact hgo _ _ _ (by decide)
        | exact statusEvolves_refl store
        | split
  · -- Publish
    intro b send store ds hnd
    cases b with
    | false => exact statusEvolves_refl store
    | true =>
      cases hfind : getPostToPublish store with
      | none =>
        simp only [runPublishingCycle, hfind]
        exact statusEvolves_refl store
      | some a =>
        obtain ⟨ha, hstat⟩ := getPostToPublish_props hfind
        have hgo : ∀ st fp em, isGraphEdge "post_generated" st = true →
            statusEvolves store (updateArticleStatus store a.id st fp em) := by
          intro st fp em hedge
          refine statusEvolves_update_row hnd ha st fp em ?_
          rw [hstat]
          exact hedge
        simp only [runPublishingCycle, hfind]
        split_ifs with h1 h2 h3
        · exact statusEvolves_refl store
        · exact statusEvolves_refl store
        · exact hgo _ _ _ (by decide)
        · cases hdr : docRead ds (a.postMdPath.getD "") with
          | none => exact hgo _ _ _ (by decide)
          | some d =>
            dsimp only
            split_ifs with h4
            · exact hgo _ _ _ (by decide)
            · cases send <;> exact hgo _ _ _ (by decide)
  · -- Fetch
    intro connOk queryOk addConnOk store entry dl sj jsonPath fetchedAt
    by_cases hl : entry.link = ""
    · refine ⟨[], by simp [fetchEntry, hl], ?_⟩
      intro r hr
      simp at hr
    · cases hex : checkArticleExists connOk queryOk store entry.link with
      | true =>
        refine ⟨[], by simp [fetchEntry, hl, hex], ?_⟩
        intro r hr
        simp at hr
      | false =>
        obtain ⟨hc, hq, hany⟩ := checkArticleExists_false hex
        cases dl with
        | failure err =>
          cases haddc : addConnOk with
          | false =>
            have hmemno := List.any_eq_false.mp hany
            have hgid : getArticleIdByUrl store entry.link = none := by
              simp [getArticleIdByUrl, List.find?_eq_none.mpr hmemno]
            refine ⟨[], ?_, ?_⟩
            · simp [fetchEntry, hl, hex, addArticle, haddc, hgid]
            · intro r hr
              simp at hr
          | true =>
            have hfresh : ∀ r ∈ store,
                r.id ≠ (newArticleRow entry.feedName entry.title entry.link
                  entry.pubDateIso fetchedAt none (maxId store + 1)).id := by
              intro r hr heq
              have := id_le_maxId hr
              simp [newArticleRow] at heq
              omega
            refine ⟨[applyUpdate
                (newArticleRow entry.feedName entry.title entry.link entry.pubDateIso
                  fetchedAt none (maxId store + 1))
                "fetch_failed" none (some ("Download error: " ++ err))], ?_, ?_⟩
            · calc fetchEntry connOk queryOk true store entry (.failure err) sj
                    jsonPath fetchedAt
                  = updateArticleStatus
                      (store ++ [newArticleRow entry.feedName entry.title entry.link
                        entry.pubDateIso fetchedAt none (maxId store + 1)])
                      (maxId store + 1) "fetch_failed" none
                      (some ("Download error: " ++ err)) := by
                    simp [fetchEntry, hl, hex, addArticle, hany]
                _ = store ++ [applyUpdate
                      (newArticleRow entry.feedName entry.title entry.link
                        entry.pubDateIso fetchedAt none (maxId store + 1))
                      "fetch_failed" none (some ("Download error: " ++ err))] :=
                    update_append_fresh store _ "fetch_failed" none
                      (some ("Download error: " ++ err)) hfresh
            · intro r hr
              rcases List.mem_singleton.mp hr with rfl
              exact Or.inr (applyUpdate_status _ _ _ _)
        | success html =>
          cases sj with
          | exn =>
            refine ⟨[], by simp [fetchEntry, hl, hex], ?_⟩
            intro r hr
            simp at hr
          | ok =>
            cases haddc : addConnOk with
            | false =>
              refine ⟨[], by simp [fetchEntry, hl, hex, addArticle, haddc], ?_⟩
              intro r hr
              simp at hr
            | true =>
              refine ⟨[newArticleRow entry.feedName entry.title entry.link
                  entry.pubDateIso fetchedAt (some jsonPath) (maxId store + 1)],
                by simp [fetchEntry, hl, hex, addArticle, hany], ?_⟩
              intro r hr
              rcases List.mem_singleton.mp hr with rfl
              exact Or.inl rfl
          | ioError =>
            cases haddc : addConnOk with
            | false =>
              refine ⟨[], by simp [fetchEntry, hl, hex, addArticle, haddc], ?_⟩
              intro r hr
              simp at hr
            | true =>
              refine ⟨[newArticleRow entry.feedName entry.title entry.link
                  entry.pubDateIso fetchedAt (some jsonPath) (maxId store + 1)],
                by simp [fetchEntry, hl, hex, addArticle, hany], ?_⟩
              intro r hr
              rcases List.mem_singleton.mp hr with rfl
              exact Or.inl rfl

/-- Witness for c2_amended_status_machine at concrete stores. -/
theorem c2_amended_status_machine_witness :
    idsNodup [exRaw] ∧
    statusEvolves [exRaw] (processArticle true exCleanOracle [exRaw] [] 4).store ∧
    (∃ r ∈ [exCleaned], r.id = 5 ∧ r.status = "cleaned") ∧
    statusEvolves [exCleaned]
      (processArticleSummary exSummOracle [exCleaned] exCleanedDocs 5
        (some "doc.md")).store ∧
    statusEvolves [exSummarized]
      (runSelectionCycle 0 50 { llm := some "http://b.com".data, writeOk := true }
        [exSummarized] exSummaryDocs).store ∧
    selectedRowsComplete [exSelected] ∧
    statusEvolves [exSelected]
      (runGenerationCycle exGenOracle [exSelected] exCleanedDocs).store ∧
    statusEvolves [exPost] (runPublishingCycle true SendOutcome.success [exPost] exPostDocs) :=
  ⟨by decide,
   c2_amended_status_machine.1 exCleanOracle [exRaw] [] 4 (by decide),
   by decide,
   c2_amended_status_machine.2.1 exSummOracle [exCleaned] exCleanedDocs 5
     (some "doc.md") (by decide) (by decide),
   c2_amended_status_machine.2.2.1 0 50
     { llm := some "http://b.com".data, writeOk := true } [exSummarized]
     exSummaryDocs (by decide),
   by decide,
   c2_amended_status_machine.2.2.2.1 exGenOracle [exSelected] exCleanedDocs
     (by decide) (by decide),
   c2_amended_status_machine.2.2.2.2.1 true SendOutcome.success [exPost] exPostDocs
     (by decide)⟩

/-- Witness for c6_duplicate_insert_rejected at a concrete store. -/
theorem c6_duplicate_insert_rejected_witness :
    (∃ r ∈ [exSelected], r.url = "http://a.com") ∧
      addArticle true [exSelected] "s" "T" "http://a.com" "d" 5 none = ([exSelected], none) ∧
      urlsNodup [exSelected] ∧
      urlsNodup (addArticle true [exSelected] "s" "T" "http://a.com" "d" 5 none).1 :=
  ⟨by decide,
   c6_duplicate_insert_rejected.1 true [exSelected] "s" "T" "http://a.com" "d" 5 none (by decide),
   by decide,
   c6_duplicate_insert_rejected.2 true [exSelected] "s" "T" "http://a.com" "d" 5 none (by decide)⟩

end Tehnosocium
